import Mathlib

/-!
Verification of the corpus access and caching layer of the textgen monorepo,
a shallow embedding of `libs/common-corpus/lambda-index.js`.

Conventions used throughout:
* JS strings are Lean `String`s; byte/codepoint sequences are `List Nat`.
* A JS function that can throw is embedded as `Except String _` (the `.error`
  payload is the message) or, when only success/failure matters, as `Option`.
* The filesystem and the other host interfaces (`fs.readFileSync`,
  `fs.readdirSync`, `fs.statSync`, `require`, the sentence splitter) are
  parameters of the embedded functions, so theorems quantify over them.
-/

namespace CommonCorpus

/-- Substring occurrence on character lists: `hasSub n h` is `true` exactly when
`n` occurs contiguously inside `h`.  This models the JS test
`h.indexOf(n) > -1` (note `"".indexOf("") === 0`, so the empty needle is
always found). -/
def hasSub (n : List Char) : List Char → Bool
  | [] => n.isEmpty
  | c :: rest => n.isPrefixOf (c :: rest) || hasSub n rest

/-- String form of `hasSub`: models `s.indexOf(n) > -1` from the source. -/
def hasSubstr (n h : String) : Bool := hasSub n.toList h.toList

/-- Split a list at every occurrence of the separator element.  Used to model
splitting a path at `/` and splitting text into lines at the newline. -/
def splitSep {α : Type} [BEq α] (sep : α) : List α → List (List α)
  | [] => [[]]
  | c :: rest =>
    match splitSep sep rest with
    | [] => [[c]]
    | h :: t => if c == sep then [] :: h :: t else (c :: h) :: t

/-- Model of Node's `path.basename` for the paths this library builds: every
path handed to it is `dir + file` with a non-empty final component and no
trailing separator, so the basename is the part after the last `/`. -/
def basename (s : String) : String :=
  String.mk ((splitSep '/' s.toList).getLastD s.toList)

/-- Model of one application of the regex `/\.(txt|js|zip|7z)$/` replacement in
`cleanName`: the regex is anchored at the end of the string, so despite the
`g` flag at most one trailing extension is removed. -/
def stripTextExtL (s : List Char) : List Char :=
  if List.isSuffixOf ".txt".toList s then s.take (s.length - 4)
  else if List.isSuffixOf ".zip".toList s then s.take (s.length - 4)
  else if List.isSuffixOf ".js".toList s then s.take (s.length - 3)
  else if List.isSuffixOf ".7z".toList s then s.take (s.length - 3)
  else s

/-- Model of JS `s.replace(pat, "")` with a plain string pattern: only the
first (leftmost) occurrence of `pat` is removed; if `pat` does not occur — or
is empty — the string is unchanged.  Used by `cleanName` to drop the corpus
root from a path. -/
def removeFirstL (pat : List Char) : List Char → List Char
  | [] => []
  | c :: rest =>
    if pat.isEmpty then c :: rest
    else if pat.isPrefixOf (c :: rest) then (c :: rest).drop pat.length
    else c :: removeFirstL pat rest

/-- Model of the `.replace(/^[\/\\]/, "")` step of `cleanName`: strip one
leading slash or backslash. -/
def stripLeadSepL : List Char → List Char
  | [] => []
  | c :: rest => if c == '/' || c == '\\' then rest else c :: rest

/-- Embedding of `cleanName` from `lambda-index.js`:
`name.replace(/\.(txt|js|zip|7z)$/g, "").replace(root, "").replace(/^[\/\\]/, "")`. -/
def cleanName (root s : String) : String :=
  String.mk (stripLeadSepL (removeFirstL root.toList (stripTextExtL s.toList)))

/-! ## The bounded text cache

`textCache` is a JS `Map`, which iterates its keys in insertion order; it is
embedded as an association list ordered oldest-first.  `getCachedText` is the
only writer, and it inserts a key only when the key is absent, so the list
never holds duplicate keys. -/

/-- The cache state: key/value pairs in insertion order, oldest first. -/
abbrev Cache := List (String × String)

/-- Embedding of `gettext` (also exposed as `readFile`) at the call level:
`g` is an oracle for the successful result of read + decode + debreak on a
path, with `none` modelling a thrown host error; `gettext` catches it and
re-throws `Failed to read text file: <basename>`. -/
def gettextE (g : String → Option String) (filename : String) :
    Except String String :=
  match g filename with
  | none => .error ("Failed to read text file: " ++ basename filename)
  | some t => .ok t

/-- Embedding of `getCachedText(filename)` from `lambda-index.js`.

On a cache hit the stored text is returned and the cache is untouched.  On a
miss the text is loaded with `gettext` (an error propagates, leaving the cache
unchanged); then, if `textCache.size >= config.maxCacheSize`, the first
(oldest inserted) key is deleted — `Map.delete(undefined)` on an empty map is
a no-op, matching `List.drop 1 [] = []` — and the new entry is appended. -/
def getCachedText (maxCacheSize : Nat) (g : String → Option String)
    (cache : Cache) (filename : String) : Except String (String × Cache) :=
  let cacheKey := basename filename
  match cache.lookup cacheKey with
  | some v => .ok (v, cache)
  | none =>
    match gettextE g filename with
    | .error e => .error e
    | .ok text =>
      let cache' := if maxCacheSize ≤ cache.length then cache.drop 1 else cache
      .ok (text, cache' ++ [(cacheKey, text)])

/-- The cache state after one `text()` call: updated on a successful load,
unchanged on a hit or when the load threw (the exception propagates to the
caller but the cache is not modified). -/
def cacheAfter (maxCacheSize : Nat) (g : String → Option String)
    (cache : Cache) (filename : String) : Cache :=
  match getCachedText maxCacheSize g cache filename with
  | .ok (_, c) => c
  | .error _ => cache

/-- The cache state after a sequence of `text()` calls starting from the empty
cache a fresh `Corpora` instance begins with. -/
def runLoads (maxCacheSize : Nat) (g : String → Option String)
    (filenames : List String) : Cache :=
  filenames.foldl (cacheAfter maxCacheSize g) []

/-- Embedding of the `config` initialiser
`{ maxCacheSize: options.maxCacheSize || 10, ..., ...options }`: the spread of
`options` comes last, so an explicitly supplied value — including `0` — wins,
and an absent key leaves the default `10`. -/
def configMaxCacheSize : Option Nat → Nat
  | none => 10
  | some n => n

/-! ## Directory scanning and corpus construction -/

/-- The filesystem as the scanner sees it.  `readdir dir` is the listing of
`dir` (`none` models `fs.readdirSync` throwing, e.g. a nonexistent
directory); `stat p` is `fs.statSync(p).isDirectory()` (`none` models
`fs.statSync` throwing, which the per-file handler catches and skips). -/
structure FSm where
  readdir : String → Option (List String)
  stat : String → Option Bool

/-- Embedding of the `dir.concat('/')` normalisation at the top of
`walkSync`: append a slash unless the last character already is one. -/
def addSlash (dir : String) : String :=
  match dir.toList.getLast? with
  | some '/' => dir
  | _ => dir ++ "/"

/-- Test of the regex `/\.(zip|7z)$/` against a file name, used by the
Lambda-mode archive skip inside `walkSync`. -/
def isArchiveName (file : String) : Bool :=
  List.isSuffixOf ".zip".toList file.toList ||
    List.isSuffixOf ".7z".toList file.toList

/-- Embedding of `walkSync(dir, filelist)` from `lambda-index.js`.

The `filelist` parameter is `Option` because the top-level call passes no
second argument (JS `undefined`, our `none`); crucially the initialisation
`filelist = filelist || []` sits AFTER `fs.readdirSync(dir)` inside the
`try`, so when reading the directory throws, the `catch` logs and the
function returns `filelist` still `undefined`.

Each listed entry is statted: a throwing stat is caught and the entry
skipped; a directory is walked recursively; a plain file is appended unless
Lambda mode skips a `.zip`/`.7z` archive.  The `###` exclusion marker on the
directory path suppresses its whole listing.  `fuel` bounds the recursion
depth for termination; a real filesystem walk uses finitely many levels, and
every theorem below either quantifies over `fuel` or uses a depth the
concrete filesystem never reaches, so the `fuel = 0` cutoff (treating a
subdirectory as yielding nothing) is never exercised. -/
def walkBody (fs : FSm) (isLambda : Bool)
    (recurse : String → List String → List String)
    (dir : String) (filelist : Option (List String)) : Option (List String) :=
  let d := addSlash dir
  match fs.readdir d with
  | none => filelist
  | some files =>
    let fl := filelist.getD []
    if hasSubstr "###" d then some fl
    else
      some (files.foldl (fun acc file =>
        let fullPath := d ++ file
        match fs.stat fullPath with
        | none => acc
        | some true => recurse (fullPath ++ "/") acc
        | some false =>
          if isLambda && isArchiveName file then acc
          else acc ++ [fullPath]) fl)

/-- The recursion of `walkSync`, structurally on the depth bound: at depth
`fuel + 1` a subdirectory entry re-enters `walkBody` with the current
accumulated list (the JS `filelist = walkSync(fullPath + '/', filelist)`
reassignment), at depth `0` the cutoff leaves the accumulator unchanged. -/
def walkSync (fs : FSm) (isLambda : Bool) :
    Nat → String → Option (List String) → Option (List String)
  | 0 => walkBody fs isLambda (fun _ acc => acc)
  | fuel + 1 => walkBody fs isLambda
      (fun p acc => (walkSync fs isLambda fuel p (some acc)).getD acc)

/-- The `books` binding of the constructor: `walkSync(root)` called with a
single argument, so the inner `filelist` starts as `undefined`. -/
def corporaBooks (fs : FSm) (isLambda : Bool) (fuel : Nat) (root : String) :
    Option (List String) :=
  walkSync fs isLambda fuel root none

/-- How a scanned file is exposed by the constructor loop: as a pre-segmented
sentence-array module loaded with `require`, or as a raw text file loaded
through `getCachedText`. -/
inductive DKind where
  | sentencesModule
  | rawText
deriving DecidableEq

/-- A document descriptor: the cleaned display name, the branch the
constructor loop chose for it, and the raw path its closures captured. -/
structure DInfo where
  name : String
  kind : DKind
  path : String
deriving DecidableEq

/-- Embedding of one iteration of the constructor loop: the branch is chosen
by `filename.indexOf('sentences') > -1` on the full path, and the display
name by `cleanName`. -/
def mkDescriptor (root filename : String) : DInfo :=
  { name := cleanName root filename
    kind := if hasSubstr "sentences" filename then DKind.sentencesModule
            else DKind.rawText
    path := filename }

/-- Embedding of the constructor from `walkSync` through the descriptor loop:
`books = walkSync(root)` followed by `for (let i = 0, len = books.length;
...)`.  When `walkSync` returned `undefined` (nonexistent or unreadable
root), reading `books.length` raises a `TypeError`, which construction does
not catch, so the embedded constructor is `Except`-valued. -/
def corporaTexts (fs : FSm) (isLambda : Bool) (fuel : Nat) (root : String) :
    Except String (List DInfo) :=
  match corporaBooks fs isLambda fuel root with
  | none => .error "TypeError: Cannot read properties of undefined (reading length)"
  | some books => .ok (books.map (mkDescriptor root))

/-! ## The filter method and its regular-expression model

The regular-expression engine is the host JavaScript runtime's, external to
this repository, so it is modelled on exactly the fragment the spec
exercises: syntax validity is the character-class balance check that makes
`new RegExp("[unclosed")` throw a `SyntaxError`, and matching of
metacharacter-free patterns under the `i` flag is case-insensitive substring
search (JS `String.prototype.match` is a partial match, not anchored). -/

/-- Scanner for the modelled `new RegExp` syntax check: a `[` opens a
character class that must be closed by `]`; a backslash escapes the next
character (and a trailing lone backslash is itself invalid); every other
character stands for itself. -/
def regexSyntaxOkL : List Char → Bool → Bool
  | [], inClass => !inClass
  | '\\' :: rest, inClass =>
    match rest with
    | [] => false
    | _ :: rest2 => regexSyntaxOkL rest2 inClass
  | '[' :: rest, false => regexSyntaxOkL rest true
  | ']' :: rest, true => regexSyntaxOkL rest false
  | _ :: rest, inClass => regexSyntaxOkL rest inClass

/-- Models whether `new RegExp(p, "i")` succeeds, on the modelled fragment. -/
def regexSyntaxOk (p : String) : Bool := regexSyntaxOkL p.toList false

/-- Models `name.match(new RegExp(p, "i")) !== null` for metacharacter-free
patterns: case-insensitive substring search, via ASCII lower-casing of both
sides. -/
def jsMatchI (p name : String) : Bool :=
  hasSub (p.toList.map Char.toLower) (name.toList.map Char.toLower)

/-- The body of `this.filter` before its `try`/`catch`: `new RegExp` throws
on a syntactically invalid pattern; otherwise the descriptor list is filtered
by name match.  The inner per-descriptor `try`/`catch` guards `m.name.match`,
which cannot throw once the regex compiled, so it adds no behaviour. -/
def filterBody (texts : List DInfo) (p : String) : Except String (List DInfo) :=
  if regexSyntaxOk p then .ok (texts.filter (fun d => jsMatchI p d.name))
  else .error ("SyntaxError: Invalid regular expression: /" ++ p ++ "/")

/-- Embedding of the public `filter` method: the `catch` handler turns a
pattern-compilation error into the empty list. -/
def corporaFilter (texts : List DInfo) (p : String) : List DInfo :=
  match filterBody texts p with
  | .ok l => l
  | .error _ => []

/-- The `try`/`catch` of `filter` viewed at the exception level: the handler
returns normally, so the method never propagates an exception. -/
def corporaFilterE (texts : List DInfo) (p : String) :
    Except String (List DInfo) :=
  match filterBody texts p with
  | .ok l => .ok l
  | .error _ => .ok []

/-! ## The text loader pipeline on bytes -/

/-- Model of `iconv.decode(buffer, "ISO8859-1")`: ISO-8859-1 maps byte `n` to
codepoint `n`, totally, for every byte value `0 ≤ n ≤ 255`. -/
def decodeLatin1 (bytes : List Nat) : List Nat := bytes

/-- Embedding of the BOM check in `gettext`:
`if (book.charCodeAt(0) === 0xFEFF) book = book.slice(1)`. -/
def stripBOM : List Nat → List Nat
  | [] => []
  | c :: rest => if c == 0xFEFF then rest else c :: rest

/-- Join the lines of one paragraph, following the debreak policy: adjacent
lines are joined with a single space, except that a line ending in a hyphen
(codepoint 45) loses the hyphen and is joined with no space. -/
def joinDebreakLines : List (List Nat) → List Nat
  | [] => []
  | [l] => l
  | l :: l2 :: rest =>
    (if l.getLast? == some 45 then l.dropLast else l ++ [32]) ++
      joinDebreakLines (l2 :: rest)

/-- Modelled from the spec: `lib/debreak.js` is required by `lambda-index.js`
but its source is not under `src/`.  Spec §4.3: split the text into lines; a
blank line is a paragraph separator and is preserved as such; consecutive
non-blank lines are joined with a single space unless the earlier line ends
in a hyphen, in which case the hyphen is removed and the join is spaceless.
Here lines are split at the newline codepoint 10, blank means empty, and
paragraphs are re-separated by a blank line. -/
def debreakM (s : List Nat) : List Nat :=
  let lines := splitSep 10 s
  let paras := splitSep ([] : List Nat) lines
  List.intercalate [10, 10] (paras.map joinDebreakLines)

/-- Embedding of `gettext` on the file's bytes: decode as ISO-8859-1, strip a
leading BOM codepoint if the first decoded character is one, then debreak. -/
def gettextBytes (bytes : List Nat) : List Nat :=
  debreakM (stripBOM (decodeLatin1 bytes))

/-! ## Per-descriptor accessors -/

/-- Model of `.join("\n")` on a JS array of strings. -/
def joinNewline : List String → String
  | [] => ""
  | [s] => s
  | s :: t :: rest => s ++ "\n" ++ joinNewline (t :: rest)

/-- The host interfaces a constructed corpus closes over: the cache bound,
the `gettext` oracle, the `require` oracle for sentence-array modules, and
the `textutil.sentencify` oracle (in each oracle `none` models a throw). -/
structure Env where
  maxCacheSize : Nat
  gettextR : String → Option String
  requireM : String → Option (List String)
  sentencifyR : String → Option (List String)

/-- Embedding of a descriptor's `text()` closure.  The sentence-module branch
wraps `require(filename).join('\n')` in a `try`/`catch` returning `""`, so it
never throws; the raw branch calls `getCachedText` with no handler, so a read
error propagates to the caller. -/
def descText (env : Env) (d : DInfo) (cache : Cache) :
    Except String (String × Cache) :=
  match d.kind with
  | DKind.sentencesModule =>
    .ok ((match env.requireM d.path with
          | none => ""
          | some arr => joinNewline arr), cache)
  | DKind.rawText => getCachedText env.maxCacheSize env.gettextR cache d.path

/-- Embedding of a descriptor's `sentences()` closure.  Both branches wrap
their whole body in a `try`/`catch` returning `[]`: the sentence-module
branch guards `require`, and the raw branch guards both the cached load and
`textutil.sentencify`, so a failure of either yields the empty list. -/
def descSentences (env : Env) (d : DInfo) (cache : Cache) :
    List String × Cache :=
  match d.kind with
  | DKind.sentencesModule => ((env.requireM d.path).getD [], cache)
  | DKind.rawText =>
    match getCachedText env.maxCacheSize env.gettextR cache d.path with
    | .error _ => ([], cache)
    | .ok (t, c) =>
      match env.sentencifyR t with
      | none => ([], c)
      | some l => (l, c)

/-! ## Concrete instances used by the examples of the spec -/

/-- A filesystem on which every host call throws: the model of a nonexistent
or unreadable corpus root. -/
def fsUnreadable : FSm := { readdir := fun _ => none, stat := fun _ => none }

/-- The first example descriptor of the spec's filter property. -/
def gibDoc : DInfo :=
  { name := "William.Gibson.Neuromancer"
    kind := DKind.rawText
    path := "/c/William.Gibson.Neuromancer.txt" }

/-- The second example descriptor of the spec's filter property. -/
def janeDoc : DInfo :=
  { name := "jane.austen.pride"
    kind := DKind.rawText
    path := "/c/jane.austen.pride.txt" }

/-- A concrete host environment in which every oracle succeeds. -/
def demoEnv : Env :=
  { maxCacheSize := 10
    gettextR := fun _ => some "text"
    requireM := fun _ => some ["A.", "B."]
    sentencifyR := fun _ => some ["One.", "Two."] }

/-- The descriptor the constructor builds for a file that lies under a
directory whose name contains `sentences` (a `.txt` extension
notwithstanding). -/
def demoSentDoc : DInfo := mkDescriptor "/c" "/c/dark.sentences/poe.txt"

/-- A host environment in which every oracle throws. -/
def envFail : Env :=
  { maxCacheSize := 10
    gettextR := fun _ => none
    requireM := fun _ => none
    sentencifyR := fun _ => none }

/-- The descriptor the constructor builds for an ordinary raw-text file. -/
def failDoc : DInfo := mkDescriptor "/c" "/c/books/missing.txt"

/-! ## Lemmas about the bounded cache -/

/-- One `text()` call keeps the cache size below `max maxCacheSize 1`: a hit
or a failed load leaves the cache unchanged, and a successful miss either
grows a below-capacity cache by one or replaces the oldest entry. -/
theorem cacheAfter_length_le {m : Nat} (g : String → Option String)
    {c : Cache} (fn : String) (h : c.length ≤ max m 1) :
    (cacheAfter m g c fn).length ≤ max m 1 := by
  unfold cacheAfter getCachedText
  cases hl : List.lookup (basename fn) c with
  | some v => simp only [hl]; exact h
  | none =>
    cases hg : gettextE g fn with
    | error e => simp only [hl, hg]; exact h
    | ok t =>
      simp only [hl, hg, List.length_append, List.length_cons, List.length_nil]
      rcases max_choice m 1 with hmx | hmx
      · have h1 : 1 ≤ m := max_eq_left_iff.mp hmx
        rw [hmx] at h ⊢
        by_cases hm : m ≤ c.length
        · simp only [if_pos hm, List.length_drop]; omega
        · simp only [if_neg hm]; omega
      · have h1 : m ≤ 1 := max_eq_right_iff.mp hmx
        rw [hmx] at h ⊢
        by_cases hm : m ≤ c.length
        · simp only [if_pos hm, List.length_drop]; omega
        · simp only [if_neg hm]; omega

/-- The size bound of `cacheAfter_length_le` is preserved along any sequence
of `text()` calls. -/
theorem foldl_cacheAfter_length_le (m : Nat) (g : String → Option String)
    (fns : List String) :
    ∀ c : Cache, c.length ≤ max m 1 →
      (fns.foldl (cacheAfter m g) c).length ≤ max m 1 := by
  induction fns with
  | nil => intro c h; simpa using h
  | cons fn rest ih =>
    intro c h
    exact ih _ (cacheAfter_length_le g fn h)

/-- C1: for every configured capacity (a positive integer, per the
configuration contract) and every sequence of `text()` loads, the number of
cache entries after each operation is at most the capacity; concretely, with
capacity 2, loading the three distinct documents `a`, `b`, `c` in order
leaves exactly the entries for `b` and `c`, with `a` evicted. -/
theorem cache_capacity_invariant :
    (∀ (m : Nat) (g : String → Option String) (fns : List String),
        1 ≤ m → (runLoads m g fns).length ≤ m)
    ∧ (runLoads 2 (fun s => some s) ["a", "b", "c"]).map Prod.fst = ["b", "c"] := by
  constructor
  · intro m g fns hm
    have h := foldl_cacheAfter_length_le m g fns [] (by simp)
    rw [max_eq_left hm] at h
    exact h
  · decide

/-- Witness instantiating `cache_capacity_invariant` at capacity 2 and the
load sequence of the claim. -/
theorem cache_capacity_invariant_witness :
    (1 ≤ 2) ∧ (runLoads 2 (fun s => some s) ["a", "b", "c"]).length ≤ 2 :=
  ⟨by decide, cache_capacity_invariant.1 2 (fun s => some s) ["a", "b", "c"] (by decide)⟩

/-- C2: a cache hit returns early and does not touch the cache, so it does
not change which entry is evicted next; concretely, with capacity 2, after
loading `a`, `b`, re-loading `a` (a hit) and then loading `c`, the evicted
entry is the oldest-inserted `a`, not `b`. -/
theorem cache_eviction_ignores_access :
    (∀ (m : Nat) (g : String → Option String) (c : Cache) (fn : String),
        (c.lookup (basename fn)).isSome = true → cacheAfter m g c fn = c)
    ∧ (runLoads 2 (fun s => some s) ["a", "b", "a", "c"]).map Prod.fst = ["b", "c"] := by
  constructor
  · intro m g c fn h
    obtain ⟨v, hv⟩ := Option.isSome_iff_exists.mp h
    unfold cacheAfter getCachedText
    simp [hv]
  · decide

/-- Witness instantiating the hit case of `cache_eviction_ignores_access` on
a one-entry cache. -/
theorem cache_eviction_ignores_access_witness :
    ((([("a", "x")] : Cache).lookup (basename "a")).isSome = true)
    ∧ cacheAfter 2 (fun _ => none) [("a", "x")] "a" = [("a", "x")] :=
  ⟨by decide, cache_eviction_ignores_access.1 2 (fun _ => none) [("a", "x")] "a" (by decide)⟩

/-- C6 counterexample: with `maxCacheSize: 0` accepted by the configuration,
a single successful `text()` load leaves one cache entry — the eviction
branch fires on the empty cache (deleting nothing) and the new entry is still
inserted — so the cache size does not stay 0. -/
theorem cache_capacity_zero_counterexample :
    (runLoads (configMaxCacheSize (some 0)) (fun s => some s) ["a"]).length = 1
    ∧ ¬ (runLoads (configMaxCacheSize (some 0)) (fun s => some s) ["a"]).length = 0 := by
  decide

/-- C6 amended: a cache capacity of 0 is accepted at construction, and the
cache then never retains more than one entry — each miss evicts the sole
existing entry before inserting the new one, but the new entry is retained. -/
theorem cache_capacity_zero_at_most_one :
    configMaxCacheSize (some 0) = 0
    ∧ ∀ (g : String → Option String) (fns : List String),
        (runLoads (configMaxCacheSize (some 0)) g fns).length ≤ 1 := by
  constructor
  · rfl
  · intro g fns
    simpa using foldl_cacheAfter_length_le 0 g fns [] (by simp)

/-! ## Construction against a missing root -/

/-- C3: against a root directory that does not exist, `walkSync` hits the
`catch` around `fs.readdirSync` before `filelist = filelist || []` ran, and
returns its `filelist` argument still `undefined`; the constructor then reads
`books.length` off `undefined` and throws a `TypeError`, at every recursion
depth, instead of yielding an empty document list. -/
theorem corpus_missing_root_throws :
    (∀ fuel : Nat, corporaTexts fsUnreadable false fuel "/nonexistent"
        = .error "TypeError: Cannot read properties of undefined (reading length)")
    ∧ (corporaTexts fsUnreadable false 5 "/nonexistent").isOk = false := by
  constructor
  · intro fuel
    cases fuel with
    | zero => rfl
    | succ n => rfl
  · rfl

/-! ## The filter method -/

/-- C4: the public `filter` never propagates an exception — at the exception
level it returns `.ok` of the pure result for every pattern and every
descriptor list — and for the invalid pattern `[unclosed` the result is the
empty sequence. -/
theorem filter_never_throws :
    (∀ (texts : List DInfo) (p : String),
        corporaFilterE texts p = .ok (corporaFilter texts p))
    ∧ (∀ texts : List DInfo, corporaFilter texts "[unclosed" = []) := by
  constructor
  · intro texts p
    unfold corporaFilterE corporaFilter
    cases filterBody texts p <;> rfl
  · intro texts
    unfold corporaFilter filterBody
    have h : regexSyntaxOk "[unclosed" = false := by decide
    simp [h]

/-- C5: for a valid pattern, `filter` returns exactly the descriptors whose
name matches the pattern case-insensitively with substring semantics, as a
sublist of the document list (so in list order); concretely, on the documents
`William.Gibson.Neuromancer` and `jane.austen.pride`, both `filter "gibson"`
and `filter "GIBSON"` return exactly the first. -/
theorem filter_case_insensitive_substring :
    (∀ (texts : List DInfo) (p : String), regexSyntaxOk p = true →
        corporaFilter texts p = texts.filter (fun d => jsMatchI p d.name))
    ∧ (∀ (texts : List DInfo) (p : String),
        List.Sublist (corporaFilter texts p) texts)
    ∧ (∀ (texts : List DInfo) (p : String) (d : DInfo), regexSyntaxOk p = true →
        (d ∈ corporaFilter texts p ↔ d ∈ texts ∧ jsMatchI p d.name = true))
    ∧ corporaFilter [gibDoc, janeDoc] "gibson" = [gibDoc]
    ∧ corporaFilter [gibDoc, janeDoc] "GIBSON" = [gibDoc] := by
  refine ⟨?_, ?_, ?_, by decide, by decide⟩
  · intro texts p hp
    unfold corporaFilter filterBody
    simp [hp]
  · intro texts p
    unfold corporaFilter filterBody
    by_cases hp : regexSyntaxOk p
    · simp only [hp, if_pos]
      exact List.filter_sublist _
    · simp only [hp, Bool.false_eq_true, if_neg]
      exact List.nil_sublist _
  · intro texts p d hp
    unfold corporaFilter filterBody
    simp [hp, List.mem_filter]

/-- Witness instantiating `filter_case_insensitive_substring` on the
spec's concrete documents and pattern. -/
theorem filter_case_insensitive_substring_witness :
    regexSyntaxOk "gibson" = true
    ∧ corporaFilter [gibDoc, janeDoc] "gibson"
        = List.filter (fun d => jsMatchI "gibson" d.name) [gibDoc, janeDoc] :=
  ⟨by decide,
    filter_case_insensitive_substring.1 [gibDoc, janeDoc] "gibson" (by decide)⟩

/-! ## Descriptor kinds -/

/-- C9: whether a document is treated as pre-segmented sentences is decided
solely by whether its full path contains the substring `sentences`; a file
under a `sentences` directory is a sentence-array module whatever its
extension, any other file is raw text; and the `text()` of a module-kind
descriptor is independent of the text loader, while the `text()` of a
raw-kind descriptor is independent of the module loader. -/
theorem sentences_kind_by_path_substring :
    (∀ root filename : String,
        (mkDescriptor root filename).kind = DKind.sentencesModule
          ↔ hasSubstr "sentences" filename = true)
    ∧ demoSentDoc.kind = DKind.sentencesModule
    ∧ (mkDescriptor "/c" "/c/books/poe.txt").kind = DKind.rawText
    ∧ (∀ (env : Env) (g2 : String → Option String) (d : DInfo) (cache : Cache),
        d.kind = DKind.sentencesModule →
          descText { env with gettextR := g2 } d cache = descText env d cache)
    ∧ (∀ (env : Env) (r2 : String → Option (List String)) (d : DInfo)
          (cache : Cache),
        d.kind = DKind.rawText →
          descText { env with requireM := r2 } d cache = descText env d cache) := by
  refine ⟨?_, by decide, by decide, ?_, ?_⟩
  · intro root filename
    unfold mkDescriptor
    by_cases h : hasSubstr "sentences" filename <;> simp [h]
  · intro env g2 d cache hk
    unfold descText
    rw [hk]
  · intro env r2 d cache hk
    unfold descText
    rw [hk]

/-- Witness instantiating `sentences_kind_by_path_substring` on the
module-kind demo descriptor with a text loader that always throws. -/
theorem sentences_kind_by_path_substring_witness :
    demoSentDoc.kind = DKind.sentencesModule
    ∧ descText { demoEnv with gettextR := fun _ => none } demoSentDoc []
        = descText demoEnv demoSentDoc [] :=
  ⟨by decide,
    sentences_kind_by_path_substring.2.2.2.1 demoEnv (fun _ => none) demoSentDoc []
      (by decide)⟩

/-! ## The cache key -/

/-- Lookup skips a left part in which the key is absent. -/
theorem lookup_append_of_none {k : String} :
    ∀ {l1 : List (String × String)} (l2 : List (String × String)),
      l1.lookup k = none → (l1 ++ l2).lookup k = l2.lookup k := by
  intro l1 l2 h
  induction l1 with
  | nil => simp
  | cons a t ih =>
    cases a with
    | mk k' v' =>
      simp only [List.cons_append, List.lookup] at h ⊢
      cases hak : (k == k') with
      | true => rw [hak] at h; exact Option.noConfusion h
      | false => rw [hak] at h; exact ih h

/-- Dropping the oldest entry cannot introduce a key that was absent. -/
theorem lookup_drop_one_of_none {k : String} {l : List (String × String)}
    (h : l.lookup k = none) : (l.drop 1).lookup k = none := by
  cases l with
  | nil => simp
  | cons a t =>
    cases a with
    | mk k' v' =>
      simp only [List.lookup] at h
      simp only [List.drop_succ_cons, List.drop_zero]
      cases hak : (k == k') with
      | true => rw [hak] at h; exact Option.noConfusion h
      | false => rw [hak] at h; exact h

/-- C7 counterexample: loading `/corpus/sub/file.txt` caches it under the key
`file.txt` — `path.basename`, extension retained, directories dropped — while
the descriptor's name is `sub/file`, so the cache holds no entry keyed by the
descriptor's name. -/
theorem cache_key_not_descriptor_name_counterexample :
    (cacheAfter 10 (fun _ => some "T") [] "/corpus/sub/file.txt").map Prod.fst
        = ["file.txt"]
    ∧ (mkDescriptor "/corpus" "/corpus/sub/file.txt").name = "sub/file"
    ∧ (cacheAfter 10 (fun _ => some "T") [] "/corpus/sub/file.txt").lookup
        (mkDescriptor "/corpus" "/corpus/sub/file.txt").name = none := by
  decide

/-- C7 amended: after every successful `text()` call the cache contains an
entry whose key is `path.basename` of the document's file path (last path
component, extension retained), mapped to the loaded text; this key differs
from the descriptor's cleaned name whenever the file has a stripped extension
or lies in a subdirectory of the root. -/
theorem cache_keyed_by_basename :
    ∀ (m : Nat) (g : String → Option String) (c : Cache) (fn t : String)
      (c' : Cache),
      getCachedText m g c fn = .ok (t, c') →
        c'.lookup (basename fn) = some t := by
  intro m g c fn t c' h
  unfold getCachedText at h
  cases hl : List.lookup (basename fn) c with
  | some v =>
    simp only [hl, Except.ok.injEq, Prod.mk.injEq] at h
    obtain ⟨ht, hc⟩ := h
    subst ht
    subst hc
    exact hl
  | none =>
    simp only [hl] at h
    cases hg : gettextE g fn with
    | error e => rw [hg] at h; exact Except.noConfusion h
    | ok tt =>
      simp only [hg, Except.ok.injEq, Prod.mk.injEq] at h
      obtain ⟨ht, hc⟩ := h
      subst ht
      subst hc
      have hcc : (if m ≤ c.length then c.drop 1 else c).lookup (basename fn)
          = none := by
        by_cases hm : m ≤ c.length
        · simp only [if_pos hm]
          exact lookup_drop_one_of_none hl
        · simp only [if_neg hm]
          exact hl
      rw [lookup_append_of_none _ hcc]
      simp [List.lookup]

/-- Witness instantiating `cache_keyed_by_basename` on a one-load run. -/
theorem cache_keyed_by_basename_witness :
    getCachedText 10 (fun _ => some "T") [] "/c/a.txt"
        = .ok ("T", [("a.txt", "T")])
    ∧ ([("a.txt", "T")] : Cache).lookup (basename "/c/a.txt") = some "T" :=
  ⟨rfl, cache_keyed_by_basename 10 (fun _ => some "T") [] "/c/a.txt" "T"
      [("a.txt", "T")] rfl⟩

/-! ## The byte-order mark -/

/-- C8: the BOM check of `gettext` is dead code — `iconv.decode(...,
"ISO8859-1")` maps every byte to a codepoint below 256, so the decoded
string can never start with the codepoint 0xFEFF and the strip branch never
fires; concretely, a file whose bytes begin with the UTF-8 byte-order mark
`EF BB BF` is loaded with those three BOM bytes still at the start. -/
theorem bom_never_stripped :
    (∀ bytes : List Nat, (∀ b ∈ bytes, b < 256) →
        stripBOM (decodeLatin1 bytes) = decodeLatin1 bytes)
    ∧ gettextBytes [0xEF, 0xBB, 0xBF, 104, 101, 108, 108, 111]
        = [0xEF, 0xBB, 0xBF, 104, 101, 108, 108, 111] := by
  constructor
  · intro bytes h
    cases bytes with
    | nil => rfl
    | cons b rest =>
      have hb : b < 256 := h b (List.mem_cons_self b rest)
      have hne : b ≠ 0xFEFF := by omega
      simp [decodeLatin1, stripBOM, hne]
  · decide

/-- Witness instantiating the dead-code half of `bom_never_stripped` on a
one-byte input. -/
theorem bom_never_stripped_witness :
    (∀ b ∈ [0xEF], b < 256)
    ∧ stripBOM (decodeLatin1 [0xEF]) = decodeLatin1 [0xEF] :=
  ⟨by decide, bom_never_stripped.1 [0xEF] (by decide)⟩

/-! ## Failure asymmetry of the raw-text accessors -/

/-- C10: for a raw-text descriptor, `sentences()` yields the empty sequence
when the read fails and also when the sentence splitter fails, while `text()`
on the same unreadable document propagates the read error, as does
`readFile` (`gettext`) on a path whose read throws. -/
theorem sentences_swallow_text_propagates :
    (∀ (env : Env) (c : Cache) (d : DInfo),
        d.kind = DKind.rawText →
          List.lookup (basename d.path) c = none →
            env.gettextR d.path = none →
              descSentences env d c = ([], c)
              ∧ descText env d c
                  = .error ("Failed to read text file: " ++ basename d.path))
    ∧ (∀ (env : Env) (c : Cache) (d : DInfo) (t : String) (c' : Cache),
        d.kind = DKind.rawText →
          env.sentencifyR t = none →
            getCachedText env.maxCacheSize env.gettextR c d.path = .ok (t, c') →
              descSentences env d c = ([], c'))
    ∧ (∀ (g : String → Option String) (fn : String), g fn = none →
          gettextE g fn = .error ("Failed to read text file: " ++ basename fn)) := by
  refine ⟨?_, ?_, ?_⟩
  · intro env c d hk hl hg
    have hget : getCachedText env.maxCacheSize env.gettextR c d.path
        = .error ("Failed to read text file: " ++ basename d.path) := by
      unfold getCachedText
      simp only [hl]
      unfold gettextE
      rw [hg]
    constructor
    · unfold descSentences
      simp only [hk, hget]
    · unfold descText
      simp only [hk, hget]
  · intro env c d t c' hk hs hget
    unfold descSentences
    simp only [hk, hget, hs]
  · intro g fn hg
    unfold gettextE
    rw [hg]

/-- Witness instantiating `sentences_swallow_text_propagates` on a raw-text
descriptor whose read always throws. -/
theorem sentences_swallow_text_propagates_witness :
    descSentences envFail failDoc [] = ([], [])
    ∧ descText envFail failDoc []
        = .error ("Failed to read text file: " ++ basename failDoc.path) :=
  sentences_swallow_text_propagates.1 envFail [] failDoc (by decide) rfl rfl

end CommonCorpus
